import Mathlib

/-!
# Verification of the MISB ST 0601 KLV stream parser

Shallow embedding of the Go sources (`klvparser.go`, `utils.go`,
`extractors.go`) of the `klvparser` repository, together with theorems
settling the specification claims about it.

Modelling conventions:

* Go `byte` is modelled as `Nat` (all byte values produced by the embedding
  are below 256; the parsing logic never depends on an upper bound).
* Go `float64` arithmetic is modelled over `ℚ` (exact rationals).  The
  claims settled here are about control flow (which descriptor slots are
  written, which comparisons are taken), not about rounding, and every
  concrete value used in a theorem is far from the 1e-5 tolerance involved
  in bounds comparisons.
* Go strings are byte strings; `string(value)` is modelled by keeping the
  raw byte list.
* A Go slice is a view `(pointer, len, cap)` into a backing array.
  Indexing `a[i]` is legal for `i < len(a)` and panics otherwise; slicing
  `a[lo:hi]` is legal for `lo ≤ hi ≤ cap(a)` — the region between `len`
  and `cap` is readable by re-slicing.  `GoSlice` keeps the visible
  content (`content`, of length `len`) and the spec-determined bytes of
  the backing array between `len` and `cap` (`ext`).  `NewKLVParser`
  creates its buffer with `make([]byte, 0, 1024)`, whose hidden array the
  Go specification guarantees to be zeroed, so for streams that fit in the
  initial capacity every byte of `ext` is determined.
* A Go runtime panic (index or slice bounds violation) is modelled as the
  `none` / `.crash` outcome of the corresponding operation.  When `append`
  must reallocate, Go does not specify the spare capacity contents, so the
  model drops the spare region (`ext := []`); no theorem below depends on
  that branch.
-/

set_option maxRecDepth 100000

namespace KLV

/-- A Go byte slice: `content` is the visible `len`-sized window,
`ext` the spec-determined bytes of the backing array between `len`
and `cap` (readable by re-slicing in Go). -/
structure GoSlice where
  content : List Nat
  ext : List Nat
deriving DecidableEq, Repr

/-- `len(s)` in Go. -/
def GoSlice.len (s : GoSlice) : Nat := s.content.length

/-- Go indexing `s[i]`: legal only below `len`; `none` models the
"index out of range" panic. -/
def GoSlice.idx? (s : GoSlice) (i : Nat) : Option Nat := s.content.get? i

/-- Go slicing `s[lo:hi]`: legal for `lo ≤ hi ≤ cap`; the result's length
is `hi - lo` and its capacity extends to the end of the backing array.
`none` models the "slice bounds out of range" panic. -/
def GoSlice.slice? (s : GoSlice) (lo hi : Nat) : Option GoSlice :=
  let all := s.content ++ s.ext
  if lo ≤ hi ∧ hi ≤ all.length then
    some ⟨(all.drop lo).take (hi - lo), all.drop hi⟩
  else
    none

/-- Go slicing `s[lo:]` (upper bound defaults to `len`).  All call sites in
the source have `lo ≤ len(s)`. -/
def GoSlice.dropFrom (s : GoSlice) (lo : Nat) : GoSlice :=
  ⟨s.content.drop lo, s.ext⟩

/-- Go `append(s, k...)`: within capacity the appended bytes overwrite the
spare region; on reallocation Go does not specify the new spare bytes, so
the model keeps none. -/
def goAppend (s : GoSlice) (k : List Nat) : GoSlice :=
  if k.length ≤ s.ext.length then ⟨s.content ++ k, s.ext.drop k.length⟩
  else ⟨s.content ++ k, []⟩

/-- Big-endian unsigned integer value of a byte list (the accumulation
`length = length<<8 | b` used throughout the source). -/
def beNat (bs : List Nat) : Nat := bs.foldl (fun a b => a * 256 + b) 0

/-- Does `needle` start at the head of `hay`? (helper for `bytes.Index`). -/
def leadsWith : List Nat → List Nat → Bool
  | [], _ => true
  | _ :: _, [] => false
  | a :: as, b :: bs => a = b && leadsWith as bs

/-- `bytes.Index(hay, needle)`: index of the first occurrence of `needle`
inside `hay`, or `none`. -/
def bytesIndex (hay needle : List Nat) : Option Nat :=
  go hay 0
where
  go : List Nat → Nat → Option Nat
    | h, i =>
      if leadsWith needle h then some i
      else match h with
        | [] => none
        | _ :: t => go t (i + 1)

/-- `MISB0601UL` from `klvparser.go`: the 16-byte universal label. -/
def MISB0601UL : List Nat :=
  [0x06, 0x0E, 0x2B, 0x34, 0x02, 0x0B, 0x01, 0x01,
   0x0E, 0x01, 0x03, 0x01, 0x01, 0x00, 0x00, 0x00]

/-! ## Registry (tag descriptor) model

The source mutates a process-global map `tagMeta : map[int]*KLVTag` whose
declaration is not among the given source files; its shape is forced by the
uses in `utils.go` (`meta.Name`, `meta.MinValue`, `meta.MaxValue`,
`meta.Value`) and by the spec's "Tag descriptor" data model.  The global
mutable map is modelled by explicit state passing of an association list. -/

/-- The `Value interface{}` slot of a descriptor: numeric tags store a
float, string tags a (byte) string, hex tags a `*string` (which the source
stores even when `nil`). -/
inductive KLVValue where
  | undef : KLVValue
  | num : ℚ → KLVValue
  | str : List Nat → KLVValue
  | hex : Option String → KLVValue
deriving DecidableEq, Repr

/-- Modelled from the spec: the `KLVTag` descriptor struct is declared
outside the given source files; per the spec's "Tag descriptor" (§3) and
the field accesses in `utils.go` it carries a name, declared physical
minimum/maximum and a mutable current-value slot. -/
structure KLVTag where
  name : String
  minValue : ℚ
  maxValue : ℚ
  value : KLVValue
deriving DecidableEq, Repr

/-- The registry `tagMeta`, modelled as explicit state. -/
abbrev Registry := List (Nat × KLVTag)

/-- `tagMeta[tag]` lookup (`nil` pointer = `none`). -/
def lookupTag : Registry → Nat → Option KLVTag
  | [], _ => none
  | p :: rest, tag => if p.1 = tag then some p.2 else lookupTag rest tag

/-- `meta.Value = v` through the pointer `tagMeta[tag]`: overwrite the
entry's value slot in place (no-op when the entry is absent; every source
path checks the pointer first). -/
def setTagValue : Registry → Nat → KLVValue → Registry
  | [], _, _ => []
  | p :: rest, tag, v =>
    if p.1 = tag then (p.1, { p.2 with value := v }) :: rest
    else p :: setTagValue rest tag v

/-! ## Extractors (`extractors.go`) -/

/-- `extractUint8`. -/
def extractUint8 (value : List Nat) : Option Nat :=
  if value.length ≥ 1 then some (beNat (value.take 1)) else none

/-- `extractUint16` (`binary.BigEndian.Uint16` reads the first 2 bytes). -/
def extractUint16 (value : List Nat) : Option Nat :=
  if value.length ≥ 2 then some (beNat (value.take 2)) else none

/-- `extractUint32`. -/
def extractUint32 (value : List Nat) : Option Nat :=
  if value.length ≥ 4 then some (beNat (value.take 4)) else none

/-- `extractUint64`. -/
def extractUint64 (value : List Nat) : Option Nat :=
  if value.length ≥ 8 then some (beNat (value.take 8)) else none

/-- Two's-complement reinterpretation of a `w`-bit unsigned value. -/
def toSigned (w : Nat) (u : Nat) : ℤ :=
  if u < 2 ^ (w - 1) then (u : ℤ) else (u : ℤ) - 2 ^ w

/-- `extractInt8` (`int8(value[0])`). -/
def extractInt8 (value : List Nat) : Option ℤ :=
  (extractUint8 value).map (toSigned 8)

/-- `extractInt32` (`int32(binary.BigEndian.Uint32(value))`). -/
def extractInt32 (value : List Nat) : Option ℤ :=
  (extractUint32 value).map (toSigned 32)

/-- `extractInt64`. -/
def extractInt64 (value : List Nat) : Option ℤ :=
  (extractUint64 value).map (toSigned 64)

/-- `extractScaledUint8`. -/
def extractScaledUint8 (value : List Nat) (scale : ℚ) : Option ℚ :=
  (extractUint8 value).map (fun u => (u : ℚ) * scale)

/-- `extractScaledUint16`. -/
def extractScaledUint16 (value : List Nat) (scale : ℚ) : Option ℚ :=
  (extractUint16 value).map (fun u => (u : ℚ) * scale)

/-- `extractScaledUint16WithOffset`. -/
def extractScaledUint16WithOffset (value : List Nat) (scale offset : ℚ) : Option ℚ :=
  (extractUint16 value).map (fun u => (u : ℚ) * scale + offset)

/-- `extractScaledInt16`. -/
def extractScaledInt16 (value : List Nat) (scale : ℚ) : Option ℚ :=
  (extractUint16 value).map (fun u => (toSigned 16 u : ℚ) * scale)

/-- `extractScaledUint32`. -/
def extractScaledUint32 (value : List Nat) (scale : ℚ) : Option ℚ :=
  (extractUint32 value).map (fun u => (u : ℚ) * scale)

/-- `extractScaledInt32`. -/
def extractScaledInt32 (value : List Nat) (scale : ℚ) : Option ℚ :=
  (extractUint32 value).map (fun u => (toSigned 32 u : ℚ) * scale)

/-- Upper-case hex digit of a nibble. -/
def hexDigit (n : Nat) : Char :=
  match n with
  | 0 => '0' | 1 => '1' | 2 => '2' | 3 => '3' | 4 => '4'
  | 5 => '5' | 6 => '6' | 7 => '7' | 8 => '8' | 9 => '9'
  | 10 => 'A' | 11 => 'B' | 12 => 'C' | 13 => 'D' | 14 => 'E'
  | _ => 'F'

/-- `fmt.Sprintf("%X", value)`: two upper-case hex digits per byte. -/
def hexRender (value : List Nat) : String :=
  String.mk (value.foldr (fun b acc => hexDigit (b / 16 % 16) :: hexDigit (b % 16) :: acc) [])

/-- `extractHex`: `nil` for an empty value. -/
def extractHex (value : List Nat) : Option String :=
  if value.length > 0 then some (hexRender value) else none

/-- Modelled from the spec: `extractIMAPB` is referenced by `klvparser.go`
but defined in a source file not among those given.  Per §4.4 the first
byte `n` is the length of the following big-endian unsigned integer `v`
(`0 < n ≤` remaining bytes, absence on insufficient input) and the result
is `v / (2^(8n) - 1)`, a unit-interval fraction. -/
def extractIMAPB (value : List Nat) : Option ℚ :=
  match value with
  | [] => none
  | n :: rest =>
    if n = 0 ∨ rest.length < n then none
    else some ((beNat (rest.take n) : ℚ) / (2 ^ (8 * n) - 1))

/-! ## `utils.go` -/

/-- `tolerance = 0.00001`. -/
def tolerance : ℚ := 1 / 100000

/-- `checkBounds` (`utils.go`): `false` when the tag has no metadata or the
value lies outside `[MinValue - tolerance, MaxValue + tolerance]`. -/
def checkBounds (reg : Registry) (tag : Nat) (value : ℚ) : Bool :=
  match lookupTag reg tag with
  | none => false
  | some meta =>
    if value < meta.minValue - tolerance ∨ value > meta.maxValue + tolerance then false
    else true

/-- `processValue` (`utils.go`): extract, bounds-check, then assign
`meta.Value`; any failure leaves the registry unchanged. -/
def processValue (reg : Registry) (tag : Nat) (value : List Nat)
    (extractor : List Nat → Option ℚ) : Registry :=
  match lookupTag reg tag with
  | none => reg
  | some _ =>
    match extractor value with
    | none => reg
    | some extractedValue =>
      if checkBounds reg tag extractedValue then setTagValue reg tag (.num extractedValue)
      else reg

/-- `extractTagValue` (`utils.go`), with the cursor `index` replaced by the
suffix `valueBytes[index:]` (every access in the source is at or after
`index`, so the two presentations coincide).  Returns the decoded length,
the value bytes (`none` models the `nil` slice returned on truncation) and
the suffix at the new cursor.  All slicing here is guarded by preceding
length checks, so no capacity bytes are ever read. -/
def extractTagValue (s : List Nat) : Nat × Option (List Nat) × List Nat :=
  match s with
  | [] => (0, none, [])
  | lengthByte :: rest =>
    if lengthByte &&& 0x80 = 0 then
      -- short form: `length = int(lengthByte)`
      if rest.length < lengthByte then (0, none, rest)
      else (lengthByte, some (rest.take lengthByte), rest.drop lengthByte)
    else
      -- long form: low 7 bits give the count of subsequent length bytes
      let lengthSize := lengthByte &&& 0x7F
      if rest.length < lengthSize then (0, none, rest)
      else
        let length := beNat (rest.take lengthSize)
        let rest2 := rest.drop lengthSize
        if rest2.length < length then (0, none, rest2)
        else (length, some (rest2.take length), rest2.drop length)

/-- `calculatePacketLength` (`utils.go`): reads the length byte at index 16
(panic below 17 bytes — all callers guard) and, in the long form, *slices*
`data[17 : 17+lengthFieldSize]`, which in Go may legally reach beyond
`len(data)` into the backing array's capacity region.  Returns
`(packetLength, lengthFieldSize)`; note the long form returns the count of
subsequent bytes, not the full field size. -/
def calculatePacketLength (data : GoSlice) : Option (Nat × Nat) :=
  match data.idx? 16 with
  | none => none
  | some lengthByte =>
    if lengthByte &&& 0x80 = 0 then some (lengthByte, 1)
    else
      let lengthFieldSize := lengthByte &&& 0x7F
      match data.slice? 17 (17 + lengthFieldSize) with
      | none => none
      | some lengthBytes => some (beNat lengthBytes.content, lengthFieldSize)

/-- `getValueStartAndLength` (`utils.go`): like `calculatePacketLength` but
returning `(valueStart, length)` and reading the long-form length bytes by
*indexing* `klvPacket[17+i]`, which panics beyond `len` (`none`). -/
def getValueStartAndLength (klvPacket : List Nat) : Option (Nat × Nat) :=
  match klvPacket.get? 16 with
  | none => none
  | some lengthByte =>
    if lengthByte &&& 0x80 = 0 then some (17, lengthByte)
    else
      let lengthSize := lengthByte &&& 0x7F
      if 17 + lengthSize ≤ klvPacket.length then
        some (17 + lengthSize, beNat ((klvPacket.drop 17).take lengthSize))
      else none

/-- Result of `extractKLVPacket`: the packet (or `nil` while incomplete),
the remaining data, and the returned `error`. -/
structure ExtractOut where
  packet : Option GoSlice
  rest : GoSlice
  err : Option String
deriving DecidableEq, Repr

/-- `extractKLVPacket` (`utils.go`): frames one packet off the front of
`data` using `calculatePacketLength`; `none` models a panic inside the
length decode. -/
def extractKLVPacket (data : GoSlice) : Option ExtractOut :=
  if data.len < 17 then some ⟨none, data, none⟩
  else
    match calculatePacketLength data with
    | none => none
    | some (packetLength, lengthFieldSize) =>
      let totalPacketSize := 16 + lengthFieldSize + packetLength
      if data.len < totalPacketSize then some ⟨none, data, none⟩
      else
        match data.slice? 0 totalPacketSize with
        | none => none
        | some pkt => some ⟨some pkt, data.dropFrom totalPacketSize, none⟩

/-! ## `processTag` (`klvparser.go`)

The Go `switch` repeats three small statement patterns besides the
`processValue` calls; they are named here once and used per case:
string cases do `val := string(value); if meta != nil { meta.Value = val }`,
hex cases do the same with `extractHex`, and tag 21 assigns a converted
`uint32` directly.  The `value` parameter is the possibly-`nil` byte slice
returned by `extractTagValue`; a `nil` slice has length 0 and converts to
the empty string, so it is represented by `[]`. -/

/-- The string-tag pattern: unconditional assignment of `string(value)`. -/
def assignString (reg : Registry) (tag : Nat) (value : List Nat) : Registry :=
  match lookupTag reg tag with
  | none => reg
  | some _ => setTagValue reg tag (.str value)

/-- The hex-tag pattern: unconditional assignment of the `*string` returned
by `extractHex` (which is `nil` for an empty value). -/
def assignHex (reg : Registry) (tag : Nat) (value : List Nat) : Registry :=
  match lookupTag reg tag with
  | none => reg
  | some _ => setTagValue reg tag (.hex (extractHex value))

/-- Tag 21's pattern: direct assignment of the decoded `uint32` with no
bounds check. -/
def assignUint32Direct (reg : Registry) (tag : Nat) (value : List Nat) : Registry :=
  match extractUint32 value with
  | none => reg
  | some u =>
    match lookupTag reg tag with
    | none => reg
    | some _ => setTagValue reg tag (.num u)

/-- Wrap an integer extractor as a `*float64` extractor, as the Go closures
`if v := extractUintN(val); v != nil { f := float64(*v); return &f }` do. -/
def natToFloat (f : List Nat → Option Nat) : List Nat → Option ℚ :=
  fun val => (f val).map (fun u => (u : ℚ))

/-- Same for signed extractors. -/
def intToFloat (f : List Nat → Option ℤ) : List Nat → Option ℚ :=
  fun val => (f val).map (fun i => (i : ℚ))

/-- What a `case` of the `processTag` switch does with its value bytes:
run them through `processValue` with the case's extractor closure, through
the string / hex assignment patterns, through tag 21's direct `uint32`
assignment, or nothing (tag 66 "deprecated" and the unknown-tag default
only print). -/
inductive TagKind where
  | pv : (List Nat → Option ℚ) → TagKind
  | strKind : TagKind
  | hexKind : TagKind
  | u32direct : TagKind
  | noop : TagKind

/-- The `processTag` switch of `klvparser.go` as a table: each source
`case` is listed with its decode kind and (for `processValue` cases) the
extractor closure with the source's scale/offset literals read as exact
rationals.  Cases with identical bodies are grouped. -/
def tagKind : Nat → TagKind
  | 1 => .pv (natToFloat extractUint16)
  | 2 | 72 | 131 => .pv (natToFloat extractUint64)
  | 3 | 4 | 10 | 11 | 12 | 59 | 70 | 106 | 107 | 108 | 129 | 135 => .strKind
  | 5 | 16 | 17 | 64 | 71 => .pv (fun val => extractScaledUint16 val (360 / 65535))
  | 6 | 7 | 19 | 40 => .pv (fun val => extractScaledInt16 val (40 / 65535))
  | 8 | 9 | 34 | 36 | 43 | 44 | 47 | 61 | 63 | 65 | 77 | 123 | 124 | 125 | 126 =>
      .pv (natToFloat extractUint8)
  | 13 | 24 | 41 | 68 | 83 | 85 | 87 | 89 =>
      .pv (fun val => extractScaledInt32 val (180 / (2 ^ 31 - 1)))
  | 14 => .pv (fun val => extractScaledInt32 val (360 / (2 ^ 31 - 1)))
  | 15 | 25 | 38 | 42 | 69 =>
      .pv (fun val => extractScaledUint16WithOffset val (19900 / 65535) (-900))
  | 18 | 20 => .pv (fun val => extractScaledUint32 val (360 / 4294967295))
  | 21 => .u32direct
  | 22 => .pv (fun val => extractScaledUint16 val (10000 / 65535))
  | 23 | 67 | 82 | 84 | 86 | 88 | 90 | 91 | 92 | 93 =>
      .pv (fun val => extractScaledInt32 val (90 / (2 ^ 31 - 1)))
  | 26 | 27 | 28 | 29 | 30 | 31 | 32 | 33 =>
      .pv (fun val => extractScaledInt16 val ((0.075 : ℚ) / 32767))
  | 35 | 45 | 46 => .pv (fun val => extractScaledUint16 val (4095 / 65535))
  | 37 | 53 => .pv (fun val => extractScaledUint16 val (5000 / 65535))
  | 39 => .pv (intToFloat extractInt8)
  | 48 | 49 | 73 | 74 | 81 | 94 | 95 | 97 | 98 | 99 | 100 | 101 | 102 | 115 | 116
  | 121 | 122 | 127 | 128 | 130 | 138 | 139 | 140 | 141 | 142 | 143 => .hexKind
  | 50 => .pv (fun val => extractScaledInt16 val (40 / 65534))
  | 51 => .pv (fun val => extractScaledInt16 val (360 / 65534))
  | 52 | 79 => .pv (fun val => extractScaledInt16 val 1)
  | 54 | 58 | 75 | 76 | 78 => .pv (fun val => extractScaledUint16 val 1)
  | 55 | 56 => .pv (fun val => extractScaledUint8 val 1)
  | 57 | 110 | 111 | 133 => .pv (natToFloat extractUint32)
  | 60 | 62 => .pv (natToFloat extractUint16)
  | 66 => .noop  -- deprecated tag: the case only prints
  | 80 => .pv (fun val => extractScaledInt16 val ((655.34 : ℚ) / 65535))
  | 96 | 103 | 104 | 105 | 109 | 112 | 113 | 114 | 117 | 118 | 119 | 120 | 132 | 134 =>
      .pv extractIMAPB
  | 136 => .pv (intToFloat extractInt32)
  | 137 => .pv (intToFloat extractInt64)
  | _ => .noop  -- default: unknown tag, only logged

/-- `processTag` (`klvparser.go`): the per-tag dispatch `switch`, acting
according to the case's kind. -/
def processTag (reg : Registry) (tag : Nat) (value : List Nat) : Registry :=
  match tagKind tag with
  | .pv f => processValue reg tag value f
  | .strKind => assignString reg tag value
  | .hexKind => assignHex reg tag value
  | .u32direct => assignUint32Direct reg tag value
  | .noop => reg

/-! ## `parseMetadata`, `parseKLVPacket`, `ProcessChunk` (`klvparser.go`) -/

/-- The remaining suffix after `extractTagValue` is never longer than its
input (it is a suffix of the input past the length byte). -/
theorem extractTagValue_rest_le (s : List Nat) :
    (extractTagValue s).2.2.length ≤ s.length := by
  match s with
  | [] => simp [extractTagValue]
  | lengthByte :: rest =>
    simp only [extractTagValue, List.length_cons]
    repeat' split
    all_goals simp [List.length_drop]
    all_goals omega

/-- Result of the payload walk of `parseMetadata`: `enc` is every tag id
byte encountered, `ids` the keys inserted in `parsedTags` (those with a
registry entry), `reg` the registry after the walk. -/
structure WalkOut where
  enc : List Nat
  ids : List Nat
  reg : Registry
deriving DecidableEq, Repr

/-- The loop body of `parseMetadata` (`klvparser.go`), structurally
recursive on a fuel bound: reads a tag byte, carves its value with
`extractTagValue` (the `nil` value of a truncated record is passed on as
the empty slice), dispatches `processTag`, and records the id in
`parsedTags` when `tagMeta` has an entry.  Every step strictly shortens
the remaining bytes (`extractTagValue_rest_le`), so the fuel
`payload.length` used by `walkTags` never runs out. -/
def walkAux : Nat → Registry → List Nat → WalkOut
  | _, reg, [] => ⟨[], [], reg⟩
  | 0, reg, _ :: _ => ⟨[], [], reg⟩  -- unreachable under the fuel invariant
  | fuel + 1, reg, tag :: rest =>
    let r := extractTagValue rest
    let reg' := processTag reg tag ((r.2.1).getD [])
    let w := walkAux fuel reg' r.2.2
    ⟨tag :: w.enc,
     (if lookupTag reg' tag ≠ none then tag :: w.ids else w.ids),
     w.reg⟩

/-- The walk of `parseMetadata` over a whole payload. -/
def walkTags (reg : Registry) (valueBytes : List Nat) : WalkOut :=
  walkAux valueBytes.length reg valueBytes

/-- `walkAux` ignores the exact fuel value once it covers the remaining
length (both computations follow the same steps). -/
theorem walkAux_fuel_irrel (fuel fuel' : Nat) (reg : Registry) (l : List Nat)
    (h : l.length ≤ fuel) (h' : l.length ≤ fuel') :
    walkAux fuel reg l = walkAux fuel' reg l := by
  induction fuel using Nat.strong_induction_on generalizing fuel' reg l with
  | _ fuel ih =>
    match l with
    | [] =>
      match fuel, fuel' with
      | 0, 0 => rfl
      | 0, _ + 1 => rfl
      | _ + 1, 0 => rfl
      | _ + 1, _ + 1 => rfl
    | tag :: rest =>
      match fuel, fuel' with
      | fuel + 1, fuel' + 1 =>
        simp only [walkAux]
        have hr : (extractTagValue rest).2.2.length ≤ fuel := by
          have := extractTagValue_rest_le rest
          simp only [List.length_cons] at h
          omega
        have hr' : (extractTagValue rest).2.2.length ≤ fuel' := by
          have := extractTagValue_rest_le rest
          simp only [List.length_cons] at h'
          omega
        rw [ih fuel (Nat.lt_succ_self _) fuel' _ _ hr hr']

/-- The per-packet callback payload: the keys of `parsedTags` and the
registry the stored descriptor pointers refer to at callback time. -/
abbrev Snapshot := List Nat × Registry

/-- `parseMetadata` (`klvparser.go`): walk the payload and invoke the
callback once with the collected map. -/
def parseMetadata (reg : Registry) (valueBytes : List Nat) : Snapshot :=
  let w := walkTags reg valueBytes
  (w.ids, w.reg)

/-- Outcome of `parseKLVPacket`: a returned error, a normal return with the
callback's snapshot, or a runtime panic. -/
inductive ParseOutcome where
  | crash : ParseOutcome
  | fail : String → ParseOutcome
  | ok : Snapshot → ParseOutcome
deriving DecidableEq, Repr

/-- `parseKLVPacket` (`klvparser.go`): checks `len ≥ 17`, re-derives
`(valueStart, length)`, checks `len ≥ 16 + 1 + length`, then slices
`klvPacket[valueStart : valueStart+length]` — a Go slice expression whose
upper bound may exceed `len(klvPacket)` (reading capacity bytes) or exceed
the capacity (panic). -/
def parseKLVPacket (reg : Registry) (klvPacket : GoSlice) : ParseOutcome :=
  if klvPacket.len < 17 then .fail "incomplete KLV packet"
  else
    match getValueStartAndLength klvPacket.content with
    | none => .crash
    | some (valueStart, length) =>
      let expectedTotalLength := 16 + 1 + length
      if klvPacket.len < expectedTotalLength then .fail "KLV packet too short"
      else
        match klvPacket.slice? valueStart (valueStart + length) with
        | none => .crash
        | some klvValue => .ok (parseMetadata reg klvValue.content)

/-- State of a `KLVParser`: its buffer and the registry it mutates. -/
structure FeedState where
  buffer : GoSlice
  reg : Registry
deriving DecidableEq, Repr

/-- Result of the `for` loop inside `ProcessChunk`. -/
structure LoopOut where
  snaps : List Snapshot
  reg : Registry
  buffer : GoSlice
  err : Option String
deriving DecidableEq, Repr

/-- The `for` loop of `ProcessChunk` (`klvparser.go`), with a fuel
parameter for termination: every iteration that continues consumes a
framed packet of at least 16 bytes from the buffer, so the fuel
`len(buffer) + 1` used by `processChunk` can never run out (the `none` it
would produce is unreachable).  `none` models a panic escaping the loop. -/
def loopPackets : Nat → Registry → GoSlice → Option LoopOut
  | 0, _, _ => none
  | fuel + 1, reg, buf =>
    match bytesIndex buf.content MISB0601UL with
    | none => some ⟨[], reg, buf, none⟩
    | some startIndex =>
      let data := buf.dropFrom startIndex
      match extractKLVPacket data with
      | none => none
      | some out =>
        match out.err with
        | some e => some ⟨[], reg, buf, some ("failed to extract KLV packet: " ++ e)⟩
        | none =>
          match out.packet with
          | none => some ⟨[], reg, buf, none⟩
          | some pkt =>
            match parseKLVPacket reg pkt with
            | .crash => none
            | .fail _ =>
              -- error only logged; buffer advances past the packet
              loopPackets fuel reg out.rest
            | .ok snap =>
              match loopPackets fuel snap.2 out.rest with
              | none => none
              | some lo => some ⟨snap :: lo.snaps, lo.reg, lo.buffer, lo.err⟩

/-- `ProcessChunk` (`klvparser.go`): append the chunk, then run the loop.
`none` models a panic escaping `ProcessChunk`; otherwise the delivered
snapshots, the new parser state and the returned `error` value. -/
def processChunk (st : FeedState) (chunk : List Nat) :
    Option (List Snapshot × FeedState × Option String) :=
  let buf := goAppend st.buffer chunk
  match loopPackets (buf.len + 1) st.reg buf with
  | none => none
  | some lo => some (lo.snaps, ⟨lo.buffer, lo.reg⟩, lo.err)

/-- Feed a list of chunks through successive `ProcessChunk` calls,
collecting every snapshot delivered to the callback; the flag records
whether a call panicked (ending the run). -/
def feedChunks (st : FeedState) : List (List Nat) → List Snapshot × Bool
  | [] => ([], false)
  | c :: cs =>
    match processChunk st c with
    | none => ([], true)
    | some (snaps, st', _) =>
      let r := feedChunks st' cs
      (snaps ++ r.1, r.2)

/-- Modelled from the spec: the contents of the registry `tagMeta` are
declared outside the given source files ("the static per-tag descriptor
table … treated as an externally supplied registry", spec §1).  This
instance supplies the entries the spec's scenarios name: checksum tag 1,
timestamp tag 2, string tag 3, a [0,360]-bounded angle tag 5, slant-range
tag 21 and hex tag 48; tag 250 is deliberately absent (spec §8). -/
def reg0 : Registry :=
  [(1, ⟨"Checksum", 0, 65535, .undef⟩),
   (2, ⟨"Precision Time Stamp", 0, 2 ^ 64 - 1, .undef⟩),
   (3, ⟨"Mission ID", 0, 0, .undef⟩),
   (5, ⟨"Platform Heading Angle", 0, 360, .undef⟩),
   (21, ⟨"Slant Range", 0, 5000000, .undef⟩),
   (48, ⟨"Weapon Load", 0, 65535, .undef⟩)]

/-- `NewKLVParser`: a fresh buffer `make([]byte, 0, 1024)` over a zeroed
1024-byte backing array (the Go specification zero-initializes the hidden
array allocated by `make`). -/
def initState : FeedState := ⟨⟨[], List.replicate 1024 0⟩, reg0⟩

/-! ## Registry-shape lemmas

`processTag` only ever writes the `Value` slot of its own tag's
descriptor: it never adds, removes or renames registry entries, and never
touches another tag's entry. -/

/-- `setTagValue` rewrites only the addressed entry's value slot. -/
theorem lookupTag_setTagValue (reg : Registry) (tag : Nat) (v : KLVValue) (t : Nat) :
    lookupTag (setTagValue reg tag v) t =
      if t = tag then (lookupTag reg t).map (fun m => { m with value := v })
      else lookupTag reg t := by
  induction reg with
  | nil => simp [setTagValue, lookupTag]
  | cons p rest ih =>
    by_cases hp : p.1 = tag
    · by_cases hpt : t = tag
      · subst hpt
        simp [setTagValue, lookupTag, hp]
      · have h1 : ¬p.1 = t := fun hc => hpt ((hc.symm.trans hp))
        have h2 : ¬tag = t := fun hc => hpt hc.symm
        simp [setTagValue, lookupTag, hp, hpt, h1, h2]
    · by_cases hpt : p.1 = t
      · have : ¬t = tag := fun hc => hp (hpt.symm ▸ hc ▸ rfl)
        simp [setTagValue, lookupTag, hp, hpt, this]
      · simp [setTagValue, lookupTag, hp, hpt, ih]

/-- `setTagValue` leaves every other tag's entry untouched. -/
theorem lookupTag_setTagValue_ne (reg : Registry) (tag : Nat) (v : KLVValue)
    (t : Nat) (h : t ≠ tag) :
    lookupTag (setTagValue reg tag v) t = lookupTag reg t := by
  rw [lookupTag_setTagValue, if_neg h]

/-- `setTagValue` preserves whether any tag has an entry. -/
theorem lookupTag_setTagValue_isSome (reg : Registry) (tag : Nat) (v : KLVValue)
    (t : Nat) :
    (lookupTag (setTagValue reg tag v) t).isSome = (lookupTag reg t).isSome := by
  rw [lookupTag_setTagValue]
  by_cases h : t = tag <;> simp [h]

/-- A failing extractor leaves `processValue` without effect. -/
theorem processValue_extractor_none (reg : Registry) (tag : Nat) (value : List Nat)
    (f : List Nat → Option ℚ) (h : f value = none) :
    processValue reg tag value f = reg := by
  simp only [processValue, h]
  cases lookupTag reg tag <;> rfl

/-- `processValue` in full: with a registry entry and a successful
extraction, the out-of-tolerance test decides between discarding the value
and overwriting the slot. -/
theorem processValue_spec (reg : Registry) (tag : Nat) (value : List Nat)
    (f : List Nat → Option ℚ) (x : ℚ) (m : KLVTag)
    (hf : f value = some x) (hm : lookupTag reg tag = some m) :
    processValue reg tag value f =
      if x < m.minValue - tolerance ∨ x > m.maxValue + tolerance then reg
      else setTagValue reg tag (.num x) := by
  simp only [processValue, checkBounds, hm, hf]
  by_cases hb : x < m.minValue - tolerance ∨ x > m.maxValue + tolerance
  · simp [hb]
  · simp [hb]

/-- `processValue` touches at most its own tag's entry. -/
theorem lookupTag_processValue_ne (reg : Registry) (tag : Nat) (value : List Nat)
    (f : List Nat → Option ℚ) (t : Nat) (h : t ≠ tag) :
    lookupTag (processValue reg tag value f) t = lookupTag reg t := by
  simp only [processValue]
  cases lookupTag reg tag with
  | none => rfl
  | some m =>
    cases f value with
    | none => rfl
    | some x =>
      by_cases hb : checkBounds reg tag x
      · simp [hb, lookupTag_setTagValue_ne _ _ _ _ h]
      · simp [hb]

/-- `processValue` preserves every tag's presence. -/
theorem lookupTag_processValue_isSome (reg : Registry) (tag : Nat) (value : List Nat)
    (f : List Nat → Option ℚ) (t : Nat) :
    (lookupTag (processValue reg tag value f) t).isSome = (lookupTag reg t).isSome := by
  simp only [processValue]
  cases lookupTag reg tag with
  | none => rfl
  | some m =>
    cases f value with
    | none => rfl
    | some x =>
      by_cases hb : checkBounds reg tag x
      · simp [hb, lookupTag_setTagValue_isSome]
      · simp [hb]

/-- `assignString` touches at most its own tag's entry. -/
theorem lookupTag_assignString_ne (reg : Registry) (tag : Nat) (value : List Nat)
    (t : Nat) (h : t ≠ tag) :
    lookupTag (assignString reg tag value) t = lookupTag reg t := by
  simp only [assignString]
  cases lookupTag reg tag with
  | none => rfl
  | some m => simp [lookupTag_setTagValue_ne _ _ _ _ h]

/-- `assignString` preserves every tag's presence. -/
theorem lookupTag_assignString_isSome (reg : Registry) (tag : Nat) (value : List Nat)
    (t : Nat) :
    (lookupTag (assignString reg tag value) t).isSome = (lookupTag reg t).isSome := by
  simp only [assignString]
  cases lookupTag reg tag with
  | none => rfl
  | some m => simp [lookupTag_setTagValue_isSome]

/-- `assignHex` touches at most its own tag's entry. -/
theorem lookupTag_assignHex_ne (reg : Registry) (tag : Nat) (value : List Nat)
    (t : Nat) (h : t ≠ tag) :
    lookupTag (assignHex reg tag value) t = lookupTag reg t := by
  simp only [assignHex]
  cases lookupTag reg tag with
  | none => rfl
  | some m => simp [lookupTag_setTagValue_ne _ _ _ _ h]

/-- `assignHex` preserves every tag's presence. -/
theorem lookupTag_assignHex_isSome (reg : Registry) (tag : Nat) (value : List Nat)
    (t : Nat) :
    (lookupTag (assignHex reg tag value) t).isSome = (lookupTag reg t).isSome := by
  simp only [assignHex]
  cases lookupTag reg tag with
  | none => rfl
  | some m => simp [lookupTag_setTagValue_isSome]

/-- Tag 21's direct assignment touches at most its own tag's entry. -/
theorem lookupTag_assignUint32Direct_ne (reg : Registry) (tag : Nat) (value : List Nat)
    (t : Nat) (h : t ≠ tag) :
    lookupTag (assignUint32Direct reg tag value) t = lookupTag reg t := by
  simp only [assignUint32Direct]
  cases extractUint32 value with
  | none => rfl
  | some u =>
    cases lookupTag reg tag with
    | none => rfl
    | some m => simp [lookupTag_setTagValue_ne _ _ _ _ h]

/-- Tag 21's direct assignment preserves every tag's presence. -/
theorem lookupTag_assignUint32Direct_isSome (reg : Registry) (tag : Nat) (value : List Nat)
    (t : Nat) :
    (lookupTag (assignUint32Direct reg tag value) t).isSome = (lookupTag reg t).isSome := by
  simp only [assignUint32Direct]
  cases extractUint32 value with
  | none => rfl
  | some u =>
    cases lookupTag reg tag with
    | none => rfl
    | some m => simp [lookupTag_setTagValue_isSome]

/-- `processTag` touches at most its own tag's registry entry. -/
theorem lookupTag_processTag_ne (reg : Registry) (tag : Nat) (value : List Nat)
    (t : Nat) (h : t ≠ tag) :
    lookupTag (processTag reg tag value) t = lookupTag reg t := by
  unfold processTag
  cases tagKind tag with
  | pv f => exact lookupTag_processValue_ne _ _ _ _ _ h
  | strKind => exact lookupTag_assignString_ne _ _ _ _ h
  | hexKind => exact lookupTag_assignHex_ne _ _ _ _ h
  | u32direct => exact lookupTag_assignUint32Direct_ne _ _ _ _ h
  | noop => rfl

/-- `processTag` preserves which tags have registry entries. -/
theorem lookupTag_processTag_isSome (reg : Registry) (tag : Nat) (value : List Nat)
    (t : Nat) :
    (lookupTag (processTag reg tag value) t).isSome = (lookupTag reg t).isSome := by
  unfold processTag
  cases tagKind tag with
  | pv f => exact lookupTag_processValue_isSome _ _ _ _ _
  | strKind => exact lookupTag_assignString_isSome _ _ _ _
  | hexKind => exact lookupTag_assignHex_isSome _ _ _ _
  | u32direct => exact lookupTag_assignUint32Direct_isSome _ _ _ _
  | noop => rfl

/-- Registry presence, read through any `processTag` call, is unchanged
(as a non-`none` statement). -/
theorem lookupTag_processTag_ne_none (reg : Registry) (tag : Nat) (value : List Nat)
    (t : Nat) :
    lookupTag (processTag reg tag value) t ≠ none ↔ lookupTag reg t ≠ none := by
  rw [Ne, Ne, ← Option.not_isSome_iff_eq_none, ← Option.not_isSome_iff_eq_none,
    lookupTag_processTag_isSome]

/-- During the payload walk, a tag id lands in `parsedTags` exactly when it
was encountered and the registry has an entry for it (registry presence is
stable during the walk). -/
theorem walkAux_mem_ids (fuel : Nat) (reg : Registry) (l : List Nat) (t : Nat)
    (h : l.length ≤ fuel) :
    t ∈ (walkAux fuel reg l).ids ↔
      t ∈ (walkAux fuel reg l).enc ∧ lookupTag reg t ≠ none := by
  induction fuel generalizing reg l with
  | zero =>
    have : l = [] := List.eq_nil_of_length_eq_zero (Nat.le_zero.mp h)
    subst this
    simp [walkAux]
  | succ fuel ih =>
    cases l with
    | nil => simp [walkAux]
    | cons tag rest =>
      have hlen : (extractTagValue rest).2.2.length ≤ fuel :=
        le_trans (extractTagValue_rest_le rest) (by simpa using Nat.succ_le_succ_iff.mp h)
      simp only [walkAux]
      have iql := ih (processTag reg tag ((extractTagValue rest).2.1.getD []))
        (extractTagValue rest).2.2 hlen
      have hdom : ∀ t' : Nat,
          lookupTag (processTag reg tag ((extractTagValue rest).2.1.getD [])) t' ≠ none ↔
            lookupTag reg t' ≠ none :=
        fun t' => lookupTag_processTag_ne_none reg tag _ t'
      by_cases hc :
          lookupTag (processTag reg tag ((extractTagValue rest).2.1.getD [])) tag ≠ none
      · rw [if_pos hc]
        simp only [List.mem_cons]
        constructor
        · rintro (rfl | hmem)
          · exact ⟨Or.inl rfl, (hdom t).mp hc⟩
          · obtain ⟨he, hl⟩ := iql.mp hmem
            exact ⟨Or.inr he, (hdom t).mp hl⟩
        · rintro ⟨(rfl | he), hl⟩
          · exact Or.inl rfl
          · exact Or.inr (iql.mpr ⟨he, (hdom t).mpr hl⟩)
      · rw [if_neg hc]
        simp only [List.mem_cons]
        constructor
        · intro hmem
          obtain ⟨he, hl⟩ := iql.mp hmem
          exact ⟨Or.inr he, (hdom t).mp hl⟩
        · rintro ⟨(rfl | he), hl⟩
          · exact absurd ((hdom t).mpr hl) hc
          · exact iql.mpr ⟨he, (hdom t).mpr hl⟩

/-- A tag id never encountered during the walk keeps its registry entry,
value slot included. -/
theorem walkAux_lookup_not_enc (fuel : Nat) (reg : Registry) (l : List Nat) (t : Nat)
    (h : l.length ≤ fuel) (ht : t ∉ (walkAux fuel reg l).enc) :
    lookupTag (walkAux fuel reg l).reg t = lookupTag reg t := by
  induction fuel generalizing reg l with
  | zero =>
    have : l = [] := List.eq_nil_of_length_eq_zero (Nat.le_zero.mp h)
    subst this
    rfl
  | succ fuel ih =>
    cases l with
    | nil => rfl
    | cons tag rest =>
      have hlen : (extractTagValue rest).2.2.length ≤ fuel :=
        le_trans (extractTagValue_rest_le rest) (by simpa using Nat.succ_le_succ_iff.mp h)
      simp only [walkAux, List.mem_cons, not_or] at ht ⊢
      obtain ⟨hne, hrest⟩ := ht
      rw [ih (processTag reg tag ((extractTagValue rest).2.1.getD [])) _ hlen hrest]
      exact lookupTag_processTag_ne _ _ _ _ hne

/-! ## Well-formed record encodings (for the truncated-record analysis) -/

/-- A byte below 128 fails the high-bit test. -/
theorem land_high_bit_eq_zero (n : Nat) (h : n ≤ 127) : n &&& 0x80 = 0 := by
  have h2 : n < 2 ^ 7 := by omega
  rw [show (0x80 : Nat) = 2 ^ 7 from rfl, Nat.and_two_pow,
    Nat.testBit_eq_false_of_lt h2]
  rfl

/-- One TLV record with a short-form length field. -/
def encodeRecord (r : Nat × List Nat) : List Nat :=
  r.1 :: r.2.length :: r.2

/-- A sequence of TLV records with short-form length fields. -/
def encodeRecords (rs : List (Nat × List Nat)) : List Nat :=
  (rs.map encodeRecord).flatten

/-- `extractTagValue` on a well-formed short-form record carves out exactly
the record's value and leaves the following bytes. -/
theorem extractTagValue_wellFormed (v more : List Nat) (hv : v.length ≤ 127) :
    extractTagValue (v.length :: (v ++ more)) = (v.length, some v, more) := by
  simp only [extractTagValue]
  rw [if_pos (land_high_bit_eq_zero _ hv)]
  rw [if_neg (by simp)]
  rw [List.take_left, List.drop_left]

/-- `extractTagValue` on a lone short-form length byte declaring a positive
length: truncation, `nil` value, cursor just past the length byte. -/
theorem extractTagValue_truncated (d : Nat) (h1 : 1 ≤ d) (h7 : d ≤ 127) :
    extractTagValue [d] = (0, none, []) := by
  simp only [extractTagValue]
  rw [if_pos (land_high_bit_eq_zero _ h7)]
  rw [if_pos (by simpa using h1)]

/-- The walk consumes one well-formed record and proceeds on the remaining
bytes with the updated registry. -/
theorem walkTags_record_step (reg : Registry) (t : Nat) (v more : List Nat)
    (hv : v.length ≤ 127) :
    walkTags reg (t :: v.length :: (v ++ more)) =
      ⟨t :: (walkTags (processTag reg t v) more).enc,
       (if lookupTag (processTag reg t v) t ≠ none
        then t :: (walkTags (processTag reg t v) more).ids
        else (walkTags (processTag reg t v) more).ids),
       (walkTags (processTag reg t v) more).reg⟩ := by
  unfold walkTags
  have hl : (t :: v.length :: (v ++ more)).length = ((v ++ more).length + 1) + 1 := by
    simp
  rw [hl]
  simp only [walkAux, extractTagValue_wellFormed v more hv, Option.getD_some]
  rw [walkAux_fuel_irrel ((v ++ more).length + 1) more.length _ more
    (by simp; omega) (Nat.le_refl _)]

/-- The tags whose `processTag` case goes through a numeric extractor
(`processValue`, or tag 21's direct `uint32` assignment). -/
def numericTagIds : List Nat :=
  [1, 2, 5, 6, 7, 8, 9, 13, 14, 15, 16, 17, 18, 19, 20, 21, 22, 23, 24, 25,
   26, 27, 28, 29, 30, 31, 32, 33, 34, 35, 36, 37, 38, 39, 40, 41, 42, 43,
   44, 45, 46, 47, 50, 51, 52, 53, 54, 55, 56, 57, 58, 60, 61, 62, 63, 64,
   65, 67, 68, 69, 71, 72, 75, 76, 77, 78, 79, 80, 82, 83, 84, 85, 86, 87,
   88, 89, 90, 91, 92, 93, 96, 103, 104, 105, 109, 110, 111, 112, 113, 114,
   117, 118, 119, 120, 123, 124, 125, 126, 131, 132, 133, 134, 136, 137]

/-- The tags whose `processTag` case assigns `string(value)` directly. -/
def stringTagIds : List Nat :=
  [3, 4, 10, 11, 12, 59, 70, 106, 107, 108, 129, 135]

/-! ## Claim theorems -/

/-- C1: the claim says the BER-style length decode used for the outer
packet length returns field size `1 + n` in the long form, with
`0x82 0x01 0x2C` decoding to length 300 and field size 3.  The code's
`calculatePacketLength` returns the subsequent-byte count `n` itself
(here 2) as the field size, while returning the full field size 1 for the
short form and while the inner tag decode (`extractTagValue`) does consume
`1 + n` bytes for the same field — the off-by-one that later corrupts
packet framing.  The value decode itself (300, and 5 for byte `0x05`)
matches the claim. -/
theorem klv_C1_long_form_field_size_bug :
    calculatePacketLength ⟨List.replicate 16 0 ++ [0x82, 0x01, 0x2C], []⟩ = some (300, 2) ∧
    (2 : Nat) ≠ 3 ∧
    calculatePacketLength ⟨List.replicate 16 0 ++ [0x05], []⟩ = some (5, 1) ∧
    extractTagValue ([0x82, 0x01, 0x2C] ++ List.replicate 300 7) =
      (300, some (List.replicate 300 7), []) :=
  ⟨rfl, by decide, rfl, rfl⟩

/-- C2: the claim says `parseKLVPacket` fails with an error whenever the
slice is shorter than `16 + field_size + length`.  The 19-byte packet
below has field size 3 and length 1 (so 20 bytes are required), yet the
code's check uses `16 + 1 + length = 18` and passes; instead of returning
an error the function slices one byte past the packet — a panic when the
slice has no spare capacity, and a silent out-of-packet read (here of the
byte `0xAB` beyond the packet's 19 bytes) when it does. -/
theorem klv_C2_too_short_check_bug :
    (List.replicate 16 0 ++ [0x82, 0x00, 0x01]).length = 19 ∧
    (19 : Nat) < 16 + 3 + 1 ∧
    parseKLVPacket reg0 ⟨List.replicate 16 0 ++ [0x82, 0x00, 0x01], []⟩ = .crash ∧
    parseKLVPacket reg0 ⟨List.replicate 16 0 ++ [0x82, 0x00, 0x01], [0xAB]⟩ =
      .ok ([], reg0) :=
  ⟨rfl, by decide, rfl, rfl⟩

/-- C3: the claim says the payload slice of every packet accepted as
complete lies within the packet's bounds, in particular for long-form
length fields.  For the long-form packet framed below, `extractKLVPacket`
accepts a *18-byte* packet (the off-by-one of C1), the payload slice is
`[18 : 19]` — past the packet's end — and parsing reads the byte `0xCC`
that belongs to the remaining stream (or panics when the slice has no
spare capacity). -/
theorem klv_C3_payload_slice_overrun_bug :
    extractKLVPacket ⟨MISB0601UL ++ [0x81, 0x01, 0xCC], []⟩ =
      some ⟨some ⟨MISB0601UL ++ [0x81, 0x01], [0xCC]⟩, ⟨[0xCC], []⟩, none⟩ ∧
    getValueStartAndLength (MISB0601UL ++ [0x81, 0x01]) = some (18, 1) ∧
    (MISB0601UL ++ [0x81, 0x01]).length = 18 ∧
    18 + 1 > 18 ∧
    parseKLVPacket reg0 ⟨MISB0601UL ++ [0x81, 0x01], [0xCC]⟩ = .ok ([], reg0) ∧
    parseKLVPacket reg0 ⟨MISB0601UL ++ [0x81, 0x01], []⟩ = .crash :=
  ⟨rfl, rfl, rfl, by decide, rfl, rfl⟩

/-- C4: the claim says the snapshot sequence depends only on the
concatenation of the fed chunks.  Feeding `UL ++ [0x82, 0x00]` first makes
`calculatePacketLength` read one spec-zeroed byte beyond the buffer's
length (legal in Go: the slice reaches into the fresh buffer's zeroed
capacity), frame a bogus 18-byte packet and then panic with an index out
of range in `getValueStartAndLength` — the run delivers no snapshot.
Feeding the same bytes in one call delivers one snapshot and does not
panic. -/
theorem klv_C4_chunk_split_divergence_bug :
    feedChunks initState [MISB0601UL ++ [0x82, 0x00], [0x01, 0xAB]] = ([], true) ∧
    (feedChunks initState [MISB0601UL ++ [0x82, 0x00, 0x01, 0xAB]]).1.length = 1 ∧
    (feedChunks initState [MISB0601UL ++ [0x82, 0x00, 0x01, 0xAB]]).2 = false ∧
    (0 : Nat) ≠ 1 :=
  ⟨rfl, rfl, rfl, by decide⟩

/-- C5 counterexample: the claim says the payload walk *stops at* a
truncated record.  In the payload below, the record of tag 2 declares
length 3 with only 2 bytes remaining; the walk processes it with a `nil`
value but then *continues*, re-reading the first byte of the truncated
record's declared value region as a fresh tag byte — tag 1 ends up
encountered and exposed in the snapshot, which a walk stopping at the
truncated record could never produce. -/
theorem klv_C5_walk_does_not_stop_counterexample :
    (walkTags reg0 [0x02, 0x03, 0x01, 0x00]).enc = [2, 1] ∧
    (walkTags reg0 [0x02, 0x03, 0x01, 0x00]).ids = [2, 1] ∧
    1 ∈ (walkTags reg0 [0x02, 0x03, 0x01, 0x00]).ids ∧
    (1 : Nat) ≠ 2 :=
  ⟨rfl, rfl, by decide, by decide⟩

/-- C5 (amended): a truncated trailing record raises no error and every
record before it is decoded and exposed exactly as it would be without the
truncated trailer; the walk stops at the truncated record only because its
length field ends the payload (its tag is still processed, with a `nil`
value, and still exposed when registered) — with further bytes after the
length field the walk would continue over them, per the counterexample. -/
theorem klv_C5_truncated_record_amended (reg : Registry) (rs : List (Nat × List Nat))
    (t d : Nat) (hrs : ∀ p ∈ rs, (p.2 : List Nat).length ≤ 127)
    (h1 : 1 ≤ d) (h7 : d ≤ 127) :
    walkTags reg (encodeRecords rs ++ [t, d]) =
      ⟨(walkTags reg (encodeRecords rs)).enc ++ [t],
       (walkTags reg (encodeRecords rs)).ids ++
         (if lookupTag (processTag (walkTags reg (encodeRecords rs)).reg t []) t ≠ none
          then [t] else []),
       processTag (walkTags reg (encodeRecords rs)).reg t []⟩ := by
  induction rs generalizing reg with
  | nil =>
    simp only [encodeRecords, List.map_nil, List.flatten_nil, List.nil_append]
    show walkAux 2 reg [t, d] = _
    simp only [walkAux, extractTagValue_truncated d h1 h7, Option.getD_none]
    rfl
  | cons p rs ih =>
    obtain ⟨t0, v0⟩ := p
    have hv0 : v0.length ≤ 127 := hrs (t0, v0) (List.mem_cons_self _ _)
    have hrs' : ∀ q ∈ rs, (q.2 : List Nat).length ≤ 127 :=
      fun q hq => hrs q (List.mem_cons_of_mem _ hq)
    have henc : encodeRecords ((t0, v0) :: rs) =
        t0 :: v0.length :: (v0 ++ encodeRecords rs) := by
      simp [encodeRecords, encodeRecord]
    have henc2 : encodeRecords ((t0, v0) :: rs) ++ [t, d] =
        t0 :: v0.length :: (v0 ++ (encodeRecords rs ++ [t, d])) := by
      simp [encodeRecords, encodeRecord, List.append_assoc]
    rw [henc2, henc, walkTags_record_step reg t0 v0 _ hv0,
      walkTags_record_step reg t0 v0 _ hv0, ih (processTag reg t0 v0) hrs']
    by_cases c0 : lookupTag (processTag reg t0 v0) t0 = none
    · simp [c0]
    · simp [c0]

/-- C5 amended, witnessed: one well-formed record (tag 1, two value
bytes) followed by a truncated trailing record (tag 2 declaring 5 bytes
with none present). -/
theorem klv_C5_truncated_record_amended_witness :
    (∀ p ∈ [((1 : Nat), [(0 : Nat), 100])], (p.2 : List Nat).length ≤ 127) ∧
    (1 : Nat) ≤ 5 ∧ (5 : Nat) ≤ 127 ∧
    walkTags reg0 (encodeRecords [(1, [0, 100])] ++ [2, 5]) =
      ⟨(walkTags reg0 (encodeRecords [(1, [0, 100])])).enc ++ [2],
       (walkTags reg0 (encodeRecords [(1, [0, 100])])).ids ++
         (if lookupTag
              (processTag (walkTags reg0 (encodeRecords [(1, [0, 100])])).reg 2 []) 2
              ≠ none
          then [2] else []),
       processTag (walkTags reg0 (encodeRecords [(1, [0, 100])])).reg 2 []⟩ :=
  ⟨by decide, by decide, by decide,
   klv_C5_truncated_record_amended reg0 [(1, [0, 100])] 2 5 (by decide) (by decide)
     (by decide)⟩

/-- A `processValue`-kind tag whose extractor rejects the empty value
leaves the registry unchanged. -/
theorem processTag_empty_of_pv (reg : Registry) (tag : Nat) (f : List Nat → Option ℚ)
    (hk : tagKind tag = .pv f) (hf : f [] = none) : processTag reg tag [] = reg := by
  unfold processTag
  rw [hk]
  exact processValue_extractor_none _ _ _ _ hf

/-- C6 counterexample: the claim says a tag whose value bytes fail to
decode keeps its descriptor value unchanged, including string-valued tags
such as tag 3.  With the `nil` value of a truncated record (the empty byte
slice), the string case assigns `string(nil)` unconditionally, so tag 3's
previous value "A" is overwritten with the empty string. -/
theorem klv_C6_string_tag_overwrite_counterexample :
    processTag [(3, ⟨"Mission ID", 0, 0, .str [65]⟩)] 3 [] =
      [(3, ⟨"Mission ID", 0, 0, .str []⟩)] ∧
    processTag [(3, ⟨"Mission ID", 0, 0, .str [65]⟩)] 3 [] ≠
      [(3, ⟨"Mission ID", 0, 0, .str [65]⟩)] :=
  ⟨rfl, by decide⟩

/-- C6 (amended): for every tag dispatched through the bounds-checked
numeric path — `processValue` with any extractor, which every numeric tag
of the switch uses, and tag 21's direct `uint32` assignment — a failed
extraction (in particular on the empty/`nil` value of a truncated record)
leaves the registry entirely unchanged, and the walk goes on to the
remaining records; string-valued tags instead overwrite their slot with
the (possibly empty) string of the value bytes. -/
theorem klv_C6_decode_failure_amended :
    (∀ (reg : Registry) (tag : Nat) (value : List Nat) (f : List Nat → Option ℚ),
        f value = none → processValue reg tag value f = reg) ∧
    (∀ (reg : Registry) (tag : Nat), tag ∈ numericTagIds → processTag reg tag [] = reg) ∧
    (∀ (reg : Registry) (tag : Nat), tag ∈ stringTagIds →
        processTag reg tag [] = assignString reg tag []) := by
  refine ⟨processValue_extractor_none, ?_, ?_⟩
  · intro reg tag h
    fin_cases h <;>
      first
        | rfl
        | exact processTag_empty_of_pv _ _ _ rfl rfl
  · intro reg tag h
    fin_cases h <;> rfl

/-- C6 amended, witnessed at tag 6 (numeric, empty value leaves the
registry unchanged) and tag 3 (string, empty value assigned). -/
theorem klv_C6_decode_failure_amended_witness :
    ((fun _ => (none : Option ℚ)) ([] : List Nat) = none) ∧
    processValue reg0 1 [] (fun _ => none) = reg0 ∧
    (6 : Nat) ∈ numericTagIds ∧
    processTag reg0 6 [] = reg0 ∧
    (3 : Nat) ∈ stringTagIds ∧
    processTag reg0 3 [] = assignString reg0 3 [] :=
  ⟨rfl, klv_C6_decode_failure_amended.1 reg0 1 [] _ rfl, by decide,
   klv_C6_decode_failure_amended.2.1 reg0 6 (by decide), by decide,
   klv_C6_decode_failure_amended.2.2 reg0 3 (by decide)⟩

/-- The spec's unknown-tag-tolerance payload: a 2-byte checksum record for
tag 1, an 8-byte timestamp record for tag 2, and a record for the
undefined tag 250. -/
def klvC7Payload : List Nat :=
  [1, 2, 0, 100, 2, 8, 0, 0, 0, 0, 0, 0, 0, 100, 250, 1, 9]

/-- C7: a tag id is in the snapshot map passed to the callback exactly
when it was encountered during the payload walk and the registry has an
entry for it — decode success does not matter, and unregistered ids (such
as tag 250) are never added.  On the concrete payload carrying tags 1, 2
and the undefined tag 250, the snapshot holds tags 1 and 2 but not 250. -/
theorem klv_C7_snapshot_membership :
    (∀ (reg : Registry) (payload : List Nat) (t : Nat),
        t ∈ (walkTags reg payload).ids ↔
          t ∈ (walkTags reg payload).enc ∧ lookupTag reg t ≠ none) ∧
    1 ∈ (walkTags reg0 klvC7Payload).ids ∧
    2 ∈ (walkTags reg0 klvC7Payload).ids ∧
    250 ∉ (walkTags reg0 klvC7Payload).ids := by
  have main : ∀ (reg : Registry) (payload : List Nat) (t : Nat),
      t ∈ (walkTags reg payload).ids ↔
        t ∈ (walkTags reg payload).enc ∧ lookupTag reg t ≠ none :=
    fun reg payload t => walkAux_mem_ids _ _ _ _ (Nat.le_refl _)
  refine ⟨main, ?_, ?_, ?_⟩
  · exact (main _ _ _).mpr ⟨by decide, by decide⟩
  · exact (main _ _ _).mpr ⟨by decide, by decide⟩
  · intro h
    exact ((main _ _ _).mp h).2 rfl

/-- C8 counterexample: the claim says every numeric tag with a registry
entry has out-of-bounds decoded values discarded.  Tag 21 (Slant Range) is
numeric, yet its case assigns the decoded `uint32` directly without any
bounds check: with declared range [0, 5000000], the decoded value 5000001
(beyond max + tolerance) overwrites the descriptor instead of being
discarded. -/
theorem klv_C8_tag21_bypasses_bounds_counterexample :
    extractUint32 [0x00, 0x4C, 0x4B, 0x41] = some 5000001 ∧
    ((5000001 : ℚ) > 5000000 + tolerance) ∧
    processTag [(21, ⟨"Slant Range", 0, 5000000, .num 5⟩)] 21 [0x00, 0x4C, 0x4B, 0x41] =
      [(21, ⟨"Slant Range", 0, 5000000, .num 5000001⟩)] ∧
    processTag [(21, ⟨"Slant Range", 0, 5000000, .num 5⟩)] 21 [0x00, 0x4C, 0x4B, 0x41] ≠
      [(21, ⟨"Slant Range", 0, 5000000, .num 5⟩)] :=
  ⟨rfl, by norm_num [tolerance], rfl, by decide⟩

/-- C8 (amended): for every tag dispatched through `processValue` (every
numeric tag except 21), a decoded value outside
`[min - 1e-5, max + 1e-5]` is discarded — the registry is unchanged, not
clamped — and an in-tolerance value overwrites the slot; tag 21 bypasses
this check entirely, per the counterexample. -/
theorem klv_C8_bounds_check_amended (reg : Registry) (tag : Nat) (value : List Nat)
    (f : List Nat → Option ℚ) (x : ℚ) (m : KLVTag)
    (hf : f value = some x) (hm : lookupTag reg tag = some m) :
    ((x < m.minValue - tolerance ∨ x > m.maxValue + tolerance) →
        processValue reg tag value f = reg) ∧
    (¬(x < m.minValue - tolerance ∨ x > m.maxValue + tolerance) →
        processValue reg tag value f = setTagValue reg tag (.num x)) := by
  constructor <;> intro hb <;>
    rw [processValue_spec reg tag value f x m hf hm] <;> simp [hb]

/-- C8 amended, witnessed on the spec's own scenario: a tag with declared
range [0, 360] (tag 5) whose decoded value is 361.0 is discarded, not
clamped. -/
theorem klv_C8_bounds_check_amended_witness :
    ((fun _ => some (361 : ℚ)) ([] : List Nat) = some 361) ∧
    lookupTag reg0 5 = some ⟨"Platform Heading Angle", 0, 360, .undef⟩ ∧
    ((361 : ℚ) < 0 - tolerance ∨ (361 : ℚ) > 360 + tolerance) ∧
    processValue reg0 5 [] (fun _ => some 361) = reg0 :=
  ⟨rfl, rfl, by norm_num [tolerance],
   (klv_C8_bounds_check_amended reg0 5 [] _ 361 _ rfl rfl).1
     (by norm_num [tolerance])⟩

/-- C9 counterexample: the claim says a tag whose decode fails retains its
previous value across packets.  Hex-valued tag 48 with an empty value
byte region (`extractHex` returns `nil` — a failed decode) has its slot
overwritten with the `nil` rendering, losing the previous value "AABB". -/
theorem klv_C9_hex_tag_reset_counterexample :
    extractHex [] = none ∧
    (walkTags [(48, ⟨"Weapon Load", 0, 65535, .hex (some "AABB")⟩)] [48, 0]).reg =
      [(48, ⟨"Weapon Load", 0, 65535, .hex none⟩)] ∧
    (walkTags [(48, ⟨"Weapon Load", 0, 65535, .hex (some "AABB")⟩)] [48, 0]).reg ≠
      [(48, ⟨"Weapon Load", 0, 65535, .hex (some "AABB")⟩)] :=
  ⟨rfl, rfl, by decide⟩

/-- C9 (amended): a registry tag id that never occurs in a packet's
payload walk keeps its entry — value included — across the packet, and a
tag routed through `processValue` retains its previous value when its
extractor fails or its bounds check rejects the value; hex-kind tags,
however, reset their slot to a `nil` rendering on an empty value, per the
counterexample. -/
theorem klv_C9_absent_tag_unchanged_amended :
    (∀ (reg : Registry) (payload : List Nat) (t : Nat),
        t ∉ (walkTags reg payload).enc →
        lookupTag (walkTags reg payload).reg t = lookupTag reg t) ∧
    (∀ (reg : Registry) (tag : Nat) (value : List Nat) (f : List Nat → Option ℚ),
        f value = none → processValue reg tag value f = reg) ∧
    (∀ (reg : Registry) (tag : Nat) (value : List Nat) (f : List Nat → Option ℚ) (x : ℚ),
        f value = some x → checkBounds reg tag x = false →
        processValue reg tag value f = reg) := by
  refine ⟨?_, processValue_extractor_none, ?_⟩
  · intro reg payload t ht
    exact walkAux_lookup_not_enc _ _ _ _ (Nat.le_refl _) ht
  · intro reg tag value f x hf hb
    simp only [processValue, hf, hb]
    cases lookupTag reg tag <;> simp

/-- C9 amended, witnessed: tag 5 is absent from a packet carrying only
tag 1, and keeps its entry. -/
theorem klv_C9_absent_tag_unchanged_amended_witness :
    (5 : Nat) ∉ (walkTags reg0 [1, 2, 0, 100]).enc ∧
    lookupTag (walkTags reg0 [1, 2, 0, 100]).reg 5 = lookupTag reg0 5 ∧
    ((fun _ => (none : Option ℚ)) ([] : List Nat) = none) ∧
    processValue reg0 5 [] (fun _ => none) = reg0 :=
  ⟨by decide, klv_C9_absent_tag_unchanged_amended.1 reg0 [1, 2, 0, 100] 5 (by decide),
   rfl, klv_C9_absent_tag_unchanged_amended.2.1 reg0 5 [] _ rfl⟩

/-- C10 counterexample: the claim says `ProcessChunk` returns a nil error
for every chunk and buffer state.  On the fresh parser, the chunk below —
the universal label followed by the long-form length byte `0x84` and only
three of the four declared length bytes — makes `calculatePacketLength`
read one spec-zeroed capacity byte, frame a bogus 20-byte packet, and then
panic with an index out of range inside `getValueStartAndLength`:
`ProcessChunk` does not return at all. -/
theorem klv_C10_panic_counterexample :
    processChunk initState (MISB0601UL ++ [0x84, 0x00, 0x00, 0x00]) = none :=
  rfl

/-- C10 (amended): whenever `ProcessChunk` returns, it returns a nil
error: `extractKLVPacket` carries a nil error on every return path, so the
error-propagating branch of `ProcessChunk` is unreachable and no framing
failure is surfaced to the caller — though `ProcessChunk` can panic
instead of returning, per the counterexample. -/
theorem klv_C10_nil_error_amended :
    (∀ (d : GoSlice) (o : ExtractOut), extractKLVPacket d = some o → o.err = none) ∧
    (∀ (st : FeedState) (chunk : List Nat)
        (r : List Snapshot × FeedState × Option String),
        processChunk st chunk = some r → r.2.2 = none) := by
  have hex : ∀ (d : GoSlice) (o : ExtractOut), extractKLVPacket d = some o →
      o.err = none := by
    intro d o h
    simp only [extractKLVPacket] at h
    split at h
    · cases h; rfl
    · split at h
      · cases h
      · split at h
        · cases h; rfl
        · split at h
          · cases h
          · cases h; rfl
  have hloop : ∀ (fuel : Nat) (reg : Registry) (buf : GoSlice) (lo : LoopOut),
      loopPackets fuel reg buf = some lo → lo.err = none := by
    intro fuel
    induction fuel with
    | zero => intro reg buf lo h; cases h
    | succ fuel ih =>
      intro reg buf lo h
      simp only [loopPackets] at h
      split at h
      · cases h; rfl
      · split at h
        · cases h
        · rename_i out hout
          split at h
          · rename_i e herr
            exact absurd (hex _ _ hout ▸ herr) (by simp [hex _ _ hout])
          · split at h
            · cases h; rfl
            · split at h
              · cases h
              · exact ih _ _ _ h
              · split at h
                · cases h
                · rename_i lo' hlo'
                  cases h
                  show lo'.err = none
                  exact ih _ _ _ hlo'
  refine ⟨hex, ?_⟩
  intro st chunk r h
  simp only [processChunk] at h
  split at h
  · cases h
  · cases h
    rename_i lo hlo
    exact hloop _ _ _ _ hlo

/-- C10 amended, witnessed: a short buffer returns with no packet and a
nil error; an empty chunk on the fresh parser returns a nil error. -/
theorem klv_C10_nil_error_amended_witness :
    (ExtractOut.mk none ⟨[0x05], []⟩ none).err = none ∧
    (([], FeedState.mk ⟨[], List.replicate 1024 0⟩ reg0, (none : Option String)) :
        List Snapshot × FeedState × Option String).2.2 = none :=
  ⟨klv_C10_nil_error_amended.1 ⟨[0x05], []⟩ _ rfl,
   klv_C10_nil_error_amended.2 initState [] _ rfl⟩

end KLV

